import Mathlib

/-!
Verification of the course-content management backend
(folders, materials, sessions, access control, analytics).

The definitions below are shallow embeddings of the JavaScript source:
Mongo documents become Lean structures, route handlers become pure
functions over an explicit store, and the MongoDB / SQLite queries the
routes build become decidable predicates over records.
-/

namespace BioPlatform

/-- User roles, from the users schema (`teacher`, `student`, `admin`). -/
inductive Role where
  | teacher
  | student
  | admin
deriving DecidableEq, Repr

/-- `studentInfo` subdocument on a user: the grade (`"9"`–`"12"`) and
program (`"EST"`, `"ACT"`, `"Both"`) strings. -/
structure StudentInfo where
  grade : String
  program : String
deriving DecidableEq, Repr

/-- A principal carried on `req.user` after the `auth` middleware. -/
structure User where
  id : String
  role : Role
  studentInfo : StudentInfo
deriving DecidableEq, Repr

/-- One entry of a `sharedWith` array: subject user id and permission
level string. -/
structure ShareGrant where
  user : String
  permission : String
deriving DecidableEq, Repr

/-- A material document (Mongo `Material` model). Ids of folders and
materials are numbers; user ids are strings (Mongo ObjectIds compared
via `toString` in the routes).  The schema defines no `sharedWith`
path, so a material document carries no share grants — several routes
nevertheless dereference `material.sharedWith`, which is `undefined`
at run time. -/
structure Material where
  id : Nat
  title : String
  description : Option String
  mtype : String
  url : Option String
  fileName : Option String
  filePath : Option String
  fileSize : Option Nat
  folder : Option Nat
  owner : String
  course : String
  grade : String
  program : String
  tags : List String
  isPublic : Bool
  viewCount : Nat
  downloadCount : Nat
  priority : String
deriving DecidableEq, Repr

/-- A folder document (Mongo `Folder` model). -/
structure Folder where
  id : Nat
  name : String
  description : Option String
  parentFolder : Option Nat
  owner : String
  course : String
  grade : String
  program : String
  color : String
  icon : String
  isPublic : Bool
  tags : List String
  path : String
deriving DecidableEq, Repr

/-! ## Access control on materials (GET /api/materials, GET /api/materials/:id,
GET /api/materials/:id/download) -/

/-- The `{'sharedWith.user': req.user._id}` branch of the student list
query.  The Material schema defines no `sharedWith` path, so no stored
material document can ever match this clause. -/
def sharedWithClause (_m : Material) (_uid : String) : Bool := false

/-- Outcome of a per-request access check: the route proceeds
(`allow`), responds 403 (`denied`), or throws inside the handler and
responds 500 (`serverError`). -/
inductive GetOutcome where
  | allow
  | denied
  | serverError
deriving DecidableEq, Repr

/-- Access check of `GET /api/materials/:id`.  For a student the code
evaluates `material.isPublic || material.sharedWith.some(...)`: a public
material short-circuits to allow, and on any non-public material the
`material.sharedWith.some` call throws a TypeError (the schema defines
no `sharedWith`), caught as a 500 — a share grant can never admit a
get.  Any other principal is admitted iff they own the material. -/
def getMaterialCheck (u : User) (m : Material) : GetOutcome :=
  match u.role with
  | Role.student =>
      if m.isPublic then GetOutcome.allow else GetOutcome.serverError
  | _ => if m.owner == u.id then GetOutcome.allow else GetOutcome.denied

/-- Access check of `GET /api/materials/:id/download` (the route
duplicates the get check line for line, including the crashing
`sharedWith` arm). -/
def downloadCheck (u : User) (m : Material) : GetOutcome :=
  match u.role with
  | Role.student =>
      if m.isPublic then GetOutcome.allow else GetOutcome.serverError
  | _ => if m.owner == u.id then GetOutcome.allow else GetOutcome.denied

/-- Whether the get check admits the request (the route goes on to
increment the view counter and respond). -/
def getMaterialAccess (u : User) (m : Material) : Bool :=
  getMaterialCheck u m == GetOutcome.allow

/-- Whether the download check admits the request. -/
def downloadAccess (u : User) (m : Material) : Bool :=
  downloadCheck u m == GetOutcome.allow

/-- Student eligibility disjunction used inside the list query:
`$or: [{grade: student.grade}, {program: student.program}, {program: 'Both'}]`. -/
def gradeProgramMatch (info : StudentInfo) (grade program : String) : Bool :=
  grade == info.grade || program == info.program || program == "Both"

/-- Base predicate of the materials list query (`GET /api/materials`),
before optional filters.  For a student the query is
`{$or: [{isPublic: true}, {'sharedWith.user': id}], $and: [{$or: [...grade/program...]}]}`:
MongoDB conjoins the `$or` and the `$and` clauses.  For any other role
the query is `{owner: req.user._id}`. -/
def listBaseMatch (u : User) (m : Material) : Bool :=
  match u.role with
  | Role.student =>
      (m.isPublic || sharedWithClause m u.id) &&
      gradeProgramMatch u.studentInfo m.grade m.program
  | _ => m.owner == u.id

/-- Optional query-string filters of `GET /api/materials`. -/
structure ListFilters where
  course : Option String
  grade : Option String
  program : Option String
  mtype : Option String
  folder : Option Nat
deriving DecidableEq, Repr

/-- Whether a material matches the optional filters (each filter is a
conjunct added to the query object when present). -/
def filtersMatch (f : ListFilters) (m : Material) : Bool :=
  (match f.course with | none => true | some c => m.course == c) &&
  (match f.grade with | none => true | some g => m.grade == g) &&
  (match f.program with | none => true | some p => m.program == p) &&
  (match f.mtype with | none => true | some t => m.mtype == t) &&
  (match f.folder with | none => true | some fl => m.folder == some fl)

/-- Full membership predicate of the materials list for a principal:
a material appears in `GET /api/materials` iff it matches the base
access query and all requested filters. -/
def listMatch (u : User) (f : ListFilters) (m : Material) : Bool :=
  listBaseMatch u m && filtersMatch f m

/-- The empty filter set (a list request with no query-string filters). -/
def noFilters : ListFilters :=
  { course := none, grade := none, program := none, mtype := none, folder := none }

/-- A grade-12 EST student. -/
def demoStudent : User :=
  { id := "stu1", role := Role.student
    studentInfo := { grade := "12", program := "EST" } }

/-- A non-public, unshared pdf material whose grade matches
`demoStudent`'s grade (so it is "eligible" in the spec's sense). -/
def demoEligibleMaterial : Material :=
  { id := 1, title := "Enzyme Kinetics Lab", description := none
    mtype := "pdf", url := none, fileName := some "lab.pdf"
    filePath := some "/uploads/t1/lab.pdf", fileSize := some 100
    folder := some 1, owner := "t1", course := "Biochemistry"
    grade := "12", program := "Both", tags := [], isPublic := false
    viewCount := 0, downloadCount := 0, priority := "medium" }

/-- A teacher who is not the owner of `demoPublicMaterial`. -/
def demoOtherTeacher : User :=
  { id := "t2", role := Role.teacher
    studentInfo := { grade := "", program := "" } }

/-- A public material owned by teacher `"t1"`. -/
def demoPublicMaterial : Material :=
  { id := 2, title := "Cell Cycle Overview", description := none
    mtype := "pdf", url := none, fileName := some "cycle.pdf"
    filePath := some "/uploads/t1/cycle.pdf", fileSize := some 50
    folder := some 1, owner := "t1", course := "Cell Biology"
    grade := "10", program := "Both", tags := [], isPublic := true
    viewCount := 0, downloadCount := 0, priority := "medium" }

/-! ## Material creation (POST /api/materials, Mongo route, and the
SQLite backend's POST /api/materials) -/

/-- Metadata multer attaches to `req.file` for an uploaded file. -/
structure UploadedFile where
  originalname : String
  fsPath : String
  size : Nat
deriving DecidableEq, Repr

/-- Request body plus optional uploaded file of the Mongo
`POST /api/materials` route. -/
structure CreatePayload where
  title : String
  description : Option String
  mtype : String
  url : Option String
  folder : Option Nat
  course : String
  grade : String
  program : String
  tags : Option String
  priority : Option String
  isPublic : Option String
  file : Option UploadedFile
deriving DecidableEq, Repr

/-- The material `type` enum of the validators and schemas. -/
def materialTypes : List String :=
  ["pdf", "doc", "docx", "ppt", "pptx", "video", "image", "link", "quiz", "assignment"]

/-- The course enum of the validators and schemas. -/
def courseNames : List String :=
  ["Biochemistry", "Cell Biology", "Animal Behavior", "Evolution",
   "Photosynthesis", "Cell Division", "Cell Respiration", "General Biology"]

/-- The grade enum. -/
def gradeNames : List String := ["9", "10", "11", "12"]

/-- The program enum. -/
def programNames : List String := ["EST", "ACT", "Both"]

/-- The priority enum of the Material schema and the SQLite CHECK. -/
def priorities : List String := ["low", "medium", "high"]

/-- JavaScript `value || fallback` for an optional string field: the
fallback is used when the field is absent or empty. -/
def jsOr (o : Option String) (fallback : String) : String :=
  match o with
  | none => fallback
  | some s => if s = "" then fallback else s

/-- Outcome of a create request: a 400 response with a message, a 201
with the created material, or a 500 when `material.save()` throws a
schema validation error. -/
inductive CreateOutcome where
  | badRequest (msg : String)
  | created (m : Material)
  | serverError
deriving DecidableEq, Repr

/-- Whitespace trimming as the validator's `.trim()` sanitizer performs
it, written over the character list so that it evaluates by `decide`. -/
def jsTrim (s : String) : String :=
  ⟨((s.data.dropWhile Char.isWhitespace).reverse.dropWhile Char.isWhitespace).reverse⟩

/-- The express-validator chain of the Mongo route: trimmed title
non-empty and `type` / `course` / `grade` / `program` in their enums. -/
def validatorsPass (p : CreatePayload) : Bool :=
  decide (1 ≤ (jsTrim p.title).length) && materialTypes.contains p.mtype &&
  courseNames.contains p.course && gradeNames.contains p.grade &&
  programNames.contains p.program

/-- `tags ? tags.split(',').map(tag => tag.trim()) : []`. -/
def splitTags : Option String → List String
  | none => []
  | some t => if t = "" then [] else (t.splitOn ",").map String.trim

/-- The parts of the Material schema's save-time validation the route
does not itself guarantee: `folder` is `required: true` (so a document
with a null folder is rejected), `priority` must lie in its enum, and
the conditional requirements — a URL for link materials, a file name
and path for every other type. The remaining required fields (title,
type, course, grade, program, owner) are guaranteed by the
express-validator chain and by construction. -/
def materialSchemaValid (m : Material) : Bool :=
  m.folder.isSome &&
  priorities.contains m.priority &&
  (if m.mtype == "link" then m.url.isSome
   else m.fileName.isSome && m.filePath.isSome)

/-- `await material.save()`: a document violating the schema makes save
throw a ValidationError, which the route's catch turns into a 500. -/
def saveMaterial (m : Material) : CreateOutcome :=
  if materialSchemaValid m then CreateOutcome.created m
  else CreateOutcome.serverError

/-- The link/file branch of the Mongo create route, followed by the
save: a link material requires a URL (400 before save) and stores no
file reference; any other type requires an uploaded file. -/
def createMaterialBody (u : User) (p : CreatePayload) (newId : Nat) : CreateOutcome :=
  let base : Material :=
    { id := newId, title := p.title, description := p.description
      mtype := p.mtype, url := none, fileName := none, filePath := none
      fileSize := none, folder := p.folder, owner := u.id
      course := p.course, grade := p.grade, program := p.program
      tags := splitTags p.tags
      isPublic := p.isPublic == some "true"
      viewCount := 0, downloadCount := 0
      priority := jsOr p.priority "medium" }
  if p.mtype == "link" then
    match p.url with
    | none => CreateOutcome.badRequest "URL is required for link type"
    | some url => saveMaterial { base with url := some url }
  else
    match p.file with
    | some f => saveMaterial
        { base with fileName := some f.originalname, filePath := some f.fsPath
                    fileSize := some f.size }
    | none => CreateOutcome.badRequest "File is required for this material type"

/-- The folder ownership check of the route: trivially satisfied when
no folder is given, else the folder must exist and belong to the
requester. -/
def folderOk (folders : List Folder) (u : User) (p : CreatePayload) : Bool :=
  match p.folder with
  | none => true
  | some fid => folders.any (fun f => f.id == fid && f.owner == u.id)

/-- The Mongo `POST /api/materials` route: validator chain, then the
folder ownership check when a folder is given, then the type branch and
the save. -/
def createMaterial (folders : List Folder) (u : User) (p : CreatePayload)
    (newId : Nat) : CreateOutcome :=
  if validatorsPass p then
    match p.folder with
    | some fid =>
        if folders.any (fun f => f.id == fid && f.owner == u.id) then
          createMaterialBody u p newId
        else CreateOutcome.badRequest "Invalid folder"
    | none => createMaterialBody u p newId
  else CreateOutcome.badRequest "validation failed"

/-- A materials row of the SQLite backend. -/
structure SqlMaterial where
  title : String
  description : Option String
  mtype : String
  file_name : Option String
  file_path : Option String
  file_size : Option Nat
  url : Option String
  folder_id : Option Nat
  course_id : Nat
  owner_id : Nat
  grade : Option String
  program : Option String
  tags : Option String
  is_public : Nat
  priority : String
deriving DecidableEq, Repr

/-- Request body plus optional file of the SQLite backend's
`POST /api/materials`. -/
structure SqlCreatePayload where
  title : String
  description : Option String
  course_id : Nat
  folder_id : Option Nat
  mtype : String
  url : Option String
  grade : Option String
  program : Option String
  tags : Option String
  is_public : Option String
  priority : Option String
  file : Option UploadedFile
deriving DecidableEq, Repr

/-- Outcome of the SQLite create route's handler logic: a 400, or the
row handed to the INSERT statement. -/
inductive SqlCreateOutcome where
  | badRequest (msg : String)
  | insert (m : SqlMaterial)
deriving DecidableEq, Repr

/-- The CHECK and foreign-key constraints of the `materials` table that
the INSERT must satisfy (`type`, nullable `grade` / `program`,
`priority`, `course_id` referencing courses, nullable `folder_id`
referencing folders).  `url` is a plain nullable TEXT column. -/
def sqlMaterialRowOk (courseIds folderIds : List Nat) (m : SqlMaterial) : Bool :=
  materialTypes.contains m.mtype &&
  (match m.grade with | none => true | some g => gradeNames.contains g) &&
  (match m.program with | none => true | some pr => programNames.contains pr) &&
  priorities.contains m.priority &&
  courseIds.contains m.course_id &&
  (match m.folder_id with | none => true | some fl => folderIds.contains fl)

/-- The SQLite backend's `POST /api/materials`: validators are trimmed
title non-empty, an integer course id (guaranteed by the payload type)
and `type` in the enum.  For `type == 'link'` the url is copied as-is
with no presence check; other types require an uploaded file.  The
result is the row handed to the INSERT. -/
def createMaterialSql (uid : Nat) (p : SqlCreatePayload) : SqlCreateOutcome :=
  if decide (1 ≤ (jsTrim p.title).length) && materialTypes.contains p.mtype then
    let base : SqlMaterial :=
      { title := p.title, description := p.description, mtype := p.mtype
        file_name := none, file_path := none, file_size := none, url := none
        folder_id := p.folder_id, course_id := p.course_id, owner_id := uid
        grade := p.grade, program := p.program, tags := p.tags
        is_public := if p.is_public == some "true" then 1 else 0
        priority := jsOr p.priority "medium" }
    if p.mtype == "link" then SqlCreateOutcome.insert { base with url := p.url }
    else
      match p.file with
      | some f => SqlCreateOutcome.insert
          { base with file_name := some f.originalname, file_path := some f.fsPath
                      file_size := some f.size }
      | none => SqlCreateOutcome.badRequest "File is required for this material type"
  else SqlCreateOutcome.badRequest "validation failed"

/-- The eight seeded course ids of the SQLite deployment. -/
def demoCourseIds : List Nat := [1, 2, 3, 4, 5, 6, 7, 8]

/-- A link-type create request with no URL, sent to the SQLite backend. -/
def demoSqlLinkPayload : SqlCreatePayload :=
  { title := "Photosynthesis reading", description := none, course_id := 5
    folder_id := none, mtype := "link", url := none, grade := some "11"
    program := some "ACT", tags := none, is_public := none, priority := none
    file := none }

/-- The row the SQLite route hands to the INSERT for
`demoSqlLinkPayload`. -/
def demoSqlLinkRow : SqlMaterial :=
  { title := "Photosynthesis reading", description := none, mtype := "link"
    file_name := none, file_path := none, file_size := none, url := none
    folder_id := none, course_id := 5, owner_id := 7, grade := some "11"
    program := some "ACT", tags := none, is_public := 0, priority := "medium" }

/-- A link-type create request with no URL for the Mongo route. -/
def demoLinkNoUrlPayload : CreatePayload :=
  { title := "Evolution reading", description := none, mtype := "link"
    url := none, folder := none, course := "Evolution", grade := "11"
    program := "ACT", tags := none, priority := none, isPublic := none
    file := none }

/-- The same request carrying a URL. -/
def demoLinkWithUrlPayload : CreatePayload :=
  { demoLinkNoUrlPayload with url := some "https://x" }

/-- A pdf-type create request with no uploaded file. -/
def demoPdfNoFilePayload : CreatePayload :=
  { demoLinkNoUrlPayload with mtype := "pdf" }

/-- A link create request carrying a URL and a valid folder. -/
def demoLinkWithUrlFolderPayload : CreatePayload :=
  { demoLinkNoUrlPayload with url := some "https://x", folder := some 1 }

/-! ## Sharing (POST /api/materials/:id/share) -/

/-- Outcome of the share route: a validator 400, a 404, or the 500 the
handler's catch produces when the loop body throws. -/
inductive ShareOutcome where
  | validationError
  | notFound
  | serverError
deriving DecidableEq, Repr

/-- `POST /api/materials/:id/share`: validators (a non-empty
`studentIds` array, permission `read` or `write`), then the owner
lookup.  When a material is found, the loop over `studentIds` runs at
least once, and its first statement `material.sharedWith.find(...)`
dereferences a field the Material schema does not define: the
TypeError is caught and answered with a 500 before any grant is stored
— the Material schema has no place to store one. -/
def shareMaterial (materials : List Material) (u : User) (mid : Nat)
    (studentIds : List String) (perm : String) : ShareOutcome :=
  if !(decide (1 ≤ studentIds.length) && (perm == "read" || perm == "write")) then
    ShareOutcome.validationError
  else
    match materials.find? (fun m => m.id == mid && m.owner == u.id) with
    | none => ShareOutcome.notFound
    | some _ => ShareOutcome.serverError

/-- The teacher owning the demo folders and materials. -/
def demoOwnerTeacher : User :=
  { id := "t1", role := Role.teacher
    studentInfo := { grade := "", program := "" } }

/-! ## Counter increments under concurrency
(`material.viewCount += 1; await material.save()` and
`material.downloadCount += 1; await material.save()`).

The route reads the counter from the fetched document and `save` writes
back the incremented value, so each increment is a read step followed by
a write step.  Two concurrent increments are modelled as two two-step
tasks over a shared counter, executed under an explicit schedule. -/

/-- Shared counter plus the program counter and read register of each of
the two increment requests (`pc = 0`: about to read, `1`: about to
save, `2`: done). -/
structure TwoIncState where
  count : Nat
  pc1 : Nat
  r1 : Nat
  pc2 : Nat
  r2 : Nat
deriving DecidableEq, Repr

/-- One scheduler step: run the next action of task 1 (`true`) or task 2
(`false`).  A read captures the current counter; a save writes back the
captured value plus one, as the route's read-modify-write does. -/
def stepRMW (which : Bool) (s : TwoIncState) : TwoIncState :=
  if which then
    if s.pc1 = 0 then { s with r1 := s.count, pc1 := 1 }
    else if s.pc1 = 1 then { s with count := s.r1 + 1, pc1 := 2 }
    else s
  else
    if s.pc2 = 0 then { s with r2 := s.count, pc2 := 1 }
    else if s.pc2 = 1 then { s with count := s.r2 + 1, pc2 := 2 }
    else s

/-- Run two concurrent counter increments under the given schedule,
starting from counter value `c0`. -/
def runRMW (sched : List Bool) (c0 : Nat) : TwoIncState :=
  sched.foldl (fun s w => stepRMW w s) { count := c0, pc1 := 0, r1 := 0, pc2 := 0, r2 := 0 }

/-! ## Zoom sessions (PUT /api/zoom/sessions/:id and
GET /api/students/:id/progress) -/

/-- One `attendees` entry of a session. -/
structure Attendee where
  student : String
  joinedAt : Int
deriving DecidableEq, Repr

/-- A Zoom session document (the fields the modelled routes touch). -/
structure Session where
  id : Nat
  title : String
  description : Option String
  course : String
  grade : String
  program : String
  teacher : String
  scheduledTime : Int
  duration : Nat
  status : String
  attendees : List Attendee
deriving DecidableEq, Repr

/-- The session `status` enum of the schema. -/
def sessionStatuses : List String := ["scheduled", "started", "ended", "cancelled"]

/-- Patch body of the session update route. -/
structure SessionPatch where
  title : Option String
  description : Option String
  scheduledTime : Option Int
  duration : Option Nat
  status : Option String
deriving DecidableEq, Repr

/-- Outcome of the session update route. -/
inductive UpdateSessionOutcome where
  | notFound
  | validationFailed
  | updated (s : Session)
deriving DecidableEq, Repr

/-- The field assignments of the update route, in source order:
`if (title) ...`, `if (description !== undefined) ...`,
`if (scheduledTime) ...`, `if (duration) ...`, `if (status) ...`
(truthiness: a string is truthy iff non-empty, a number iff non-zero). -/
def applySessionPatch (s : Session) (p : SessionPatch) : Session :=
  let s1 := match p.title with
    | some t => if t ≠ "" then { s with title := t } else s
    | none => s
  let s2 := match p.description with
    | some d => { s1 with description := some d }
    | none => s1
  let s3 := match p.scheduledTime with
    | some t => { s2 with scheduledTime := t }
    | none => s2
  let s4 := match p.duration with
    | some d => if d ≠ 0 then { s3 with duration := d } else s3
    | none => s3
  match p.status with
  | some st => if st ≠ "" then { s4 with status := st } else s4
  | none => s4

/-- `PUT /api/zoom/sessions/:id`: find the session owned by the teacher,
apply the patch field-by-field, then save (the schema's enum validator
rejects a status outside the enum). -/
def updateSession (sessions : List Session) (uid : String) (sid : Nat)
    (p : SessionPatch) : UpdateSessionOutcome :=
  match sessions.find? (fun s => s.id == sid && s.teacher == uid) with
  | none => UpdateSessionOutcome.notFound
  | some s =>
      let s' := applySessionPatch s p
      if sessionStatuses.contains s'.status then UpdateSessionOutcome.updated s'
      else UpdateSessionOutcome.validationFailed

/-- A patch that only sets the status. -/
def statusPatch (v : String) : SessionPatch :=
  { title := none, description := none, scheduledTime := none
    duration := none, status := some v }

/-- An already-ended session of teacher `"t1"`. -/
def demoEndedSession : Session :=
  { id := 1, title := "Mitosis review", description := none
    course := "Cell Division", grade := "12", program := "Both"
    teacher := "t1", scheduledTime := 100, duration := 60
    status := "ended", attendees := [] }

/-- A cancelled session of teacher `"t1"`. -/
def demoCancelledSession : Session :=
  { demoEndedSession with id := 2, status := "cancelled" }

/-- `GET /api/students/:id/progress` output fields modelled here. -/
structure ProgressReport where
  sessionsAttended : Nat
  totalSessions : Nat
  attendanceRate : ℤ
deriving DecidableEq, Repr

/-- The progress analytics: `sessionsAttended` counts every session
whose attendee list contains the student; `totalSessions` counts
grade/program-eligible sessions with `scheduledTime <= now`; the rate is
`totalSessions > 0 ? (attended / totalSessions) * 100 : 0`, rounded to
the nearest integer (`Math.round`) in the response. -/
def getStudentProgress (sessions : List Session) (stuId : String)
    (info : StudentInfo) (now : Int) : ProgressReport :=
  let sessionsAttended :=
    sessions.filter (fun s => s.attendees.any (fun a => a.student == stuId))
  let totalSessions :=
    (sessions.filter (fun s =>
      gradeProgramMatch info s.grade s.program && decide (s.scheduledTime ≤ now))).length
  let attendanceRate : ℚ :=
    if totalSessions > 0 then
      ((sessionsAttended.length : ℚ) / (totalSessions : ℚ)) * 100
    else 0
  { sessionsAttended := sessionsAttended.length
    totalSessions := totalSessions
    attendanceRate := round attendanceRate }

/-- A past session `demoStudent` attended. -/
def demoSessionA : Session :=
  { id := 3, title := "Enzymes live", description := none
    course := "Biochemistry", grade := "12", program := "Both"
    teacher := "t1", scheduledTime := 50, duration := 60
    status := "ended", attendees := [{ student := "stu1", joinedAt := 55 }] }

/-- A past eligible session the student missed. -/
def demoSessionB : Session :=
  { demoSessionA with id := 4, scheduledTime := 80, attendees := [] }

/-- A future eligible session (excluded from the denominator). -/
def demoSessionC : Session :=
  { demoSessionA with id := 5, scheduledTime := 200, attendees := [] }

/-- The session store used in the analytics witness. -/
def demoSessions : List Session := [demoSessionA, demoSessionB, demoSessionC]

/-! ## Folder creation and update (POST /api/folders, PUT /api/folders/:id,
with the Folder model's pre-save path hook) -/

/-- `Folder.findById`. -/
def findFolderById (folders : List Folder) (fid : Nat) : Option Folder :=
  folders.find? (fun f => f.id == fid)

/-- The `pre('save')` hook of the Folder model: with a parent folder the
path is the parent's current path plus `"/"` plus the folder's name,
else just the name.  A missing parent makes the hook throw (the save
fails), modelled as `none`. -/
def computePath (folders : List Folder) (parentFolder : Option Nat)
    (name : String) : Option String :=
  match parentFolder with
  | none => some name
  | some pid => (findFolderById folders pid).map (fun parent => parent.path ++ "/" ++ name)

/-- Body of `POST /api/folders`. -/
structure FolderPayload where
  name : String
  description : Option String
  parentFolder : Option Nat
  course : String
  grade : String
  program : String
  color : Option String
  icon : Option String
  isPublic : Option Bool
  tags : Option (List String)
deriving DecidableEq, Repr

/-- Outcome of the folder create/update routes. -/
inductive FolderOutcome where
  | validationFailed
  | duplicateName
  | notFound
  | saveFailed
  | ok (folders : List Folder) (f : Folder)
deriving DecidableEq, Repr

/-- `POST /api/folders`: validator chain, duplicate-name check under the
same parent and owner, then construction and save (the pre-save hook
computes the path; schema defaults fill color and icon). -/
def createFolder (folders : List Folder) (uid : String) (p : FolderPayload)
    (newId : Nat) : FolderOutcome :=
  if !(decide (1 ≤ (jsTrim p.name).length) && courseNames.contains p.course &&
        gradeNames.contains p.grade && programNames.contains p.program) then
    FolderOutcome.validationFailed
  else if folders.any (fun f =>
      f.name == p.name && f.parentFolder == p.parentFolder && f.owner == uid) then
    FolderOutcome.duplicateName
  else
    match computePath folders p.parentFolder p.name with
    | none => FolderOutcome.saveFailed
    | some path =>
        let f : Folder :=
          { id := newId, name := p.name, description := p.description
            parentFolder := p.parentFolder, owner := uid, course := p.course
            grade := p.grade, program := p.program
            color := p.color.getD "#2c5aa0", icon := p.icon.getD "folder"
            isPublic := p.isPublic.getD false, tags := p.tags.getD []
            path := path }
        FolderOutcome.ok (folders ++ [f]) f

/-- Body of `PUT /api/folders/:id`. -/
structure FolderUpdatePayload where
  name : Option String
  description : Option String
  color : Option String
  icon : Option String
  isPublic : Option Bool
  tags : Option (List String)
deriving DecidableEq, Repr

/-- Whether the update renames the folder:
`if (name && name !== folder.name)`. -/
def renames (p : FolderUpdatePayload) (folder : Folder) : Bool :=
  match p.name with
  | some n => n ≠ "" && !(n == folder.name)
  | none => false

/-- The non-name field assignments of the folder update route, in source
order (`description !== undefined`, truthy `color`, truthy `icon`,
`isPublic !== undefined`, truthy `tags` — a present array is truthy). -/
def applyFolderPatch (f : Folder) (p : FolderUpdatePayload) : Folder :=
  let f1 := match p.description with
    | some d => { f with description := some d }
    | none => f
  let f2 := match p.color with
    | some c => if c ≠ "" then { f1 with color := c } else f1
    | none => f1
  let f3 := match p.icon with
    | some i => if i ≠ "" then { f2 with icon := i } else f2
    | none => f2
  let f4 := match p.isPublic with
    | some b => { f3 with isPublic := b }
    | none => f3
  match p.tags with
  | some t => { f4 with tags := t }
  | none => f4

/-- The document state right before save: the name assignment when the
update renames, then the other patch fields. -/
def renamedFolder (p : FolderUpdatePayload) (folder : Folder) : Folder :=
  applyFolderPatch
    (if renames p folder then { folder with name := p.name.getD folder.name }
     else folder) p

/-- `PUT /api/folders/:id`: find the folder owned by the requester; on a
rename, check sibling uniqueness excluding the folder itself and assign
the new name; apply the other patch fields; save (the pre-save hook
recomputes this folder's path from its parent's current path).  Only the
updated record is written back. -/
def updateFolder (folders : List Folder) (uid : String) (fid : Nat)
    (p : FolderUpdatePayload) : FolderOutcome :=
  if !(match p.name with
        | none => true
        | some n => decide (1 ≤ (jsTrim n).length)) then
    FolderOutcome.validationFailed
  else
    match folders.find? (fun f => f.id == fid && f.owner == uid) with
    | none => FolderOutcome.notFound
    | some folder =>
        if renames p folder &&
            folders.any (fun f =>
              f.name == p.name.getD "" && f.parentFolder == folder.parentFolder &&
              f.owner == uid && !(f.id == folder.id)) then
          FolderOutcome.duplicateName
        else
          match computePath folders (renamedFolder p folder).parentFolder
              (renamedFolder p folder).name with
          | none => FolderOutcome.saveFailed
          | some path =>
              FolderOutcome.ok
                (folders.map (fun g =>
                  if g.id == fid then { renamedFolder p folder with path := path }
                  else g))
                { renamedFolder p folder with path := path }

/-- A root folder of teacher `"t1"`. -/
def demoRootFolder : Folder :=
  { id := 1, name := "Sem1", description := none, parentFolder := none
    owner := "t1", course := "Biochemistry", grade := "12", program := "Both"
    color := "#2c5aa0", icon := "folder", isPublic := false, tags := []
    path := "Sem1" }

/-- A child of `demoRootFolder` whose stored path embeds the parent's
name. -/
def demoChildFolder : Folder :=
  { demoRootFolder with
    id := 2, name := "Labs", parentFolder := some 1, path := "Sem1/Labs" }

/-- The two-folder store of the folder witnesses. -/
def demoFolderStore : List Folder := [demoRootFolder, demoChildFolder]

/-- A create request for a folder under `demoRootFolder`. -/
def demoCreateChildPayload : FolderPayload :=
  { name := "Quizzes", description := none, parentFolder := some 1
    course := "Biochemistry", grade := "12", program := "Both"
    color := none, icon := none, isPublic := none, tags := none }

/-- An update request renaming the root folder. -/
def demoRenamePatch : FolderUpdatePayload :=
  { name := some "Semester1", description := none, color := none
    icon := none, isPublic := none, tags := none }

/-- The root folder after the rename (path recomputed from the new
name). -/
def demoRenamedRoot : Folder :=
  { demoRootFolder with name := "Semester1", path := "Semester1" }

/-- The store after renaming the root: the child keeps its stale path. -/
def demoRenamedStore : List Folder := [demoRenamedRoot, demoChildFolder]

/-- The folder record `demoCreateChildPayload` produces under id 7. -/
def demoCreatedChild : Folder :=
  { id := 7, name := "Quizzes", description := none, parentFolder := some 1
    owner := "t1", course := "Biochemistry", grade := "12", program := "Both"
    color := "#2c5aa0", icon := "folder", isPublic := false, tags := []
    path := "Sem1/Quizzes" }

/-! ## Recursive folder deletion (DELETE /api/folders/:id and the
`deleteFolder` helper) -/

/-- A record-deletion event, in execution order: the `deleteMany` over a
folder's materials, then the folder record's own deletion. -/
inductive DelEvent where
  | materials (fid : Nat)
  | folder (fid : Nat)
deriving DecidableEq, Repr

/-- The store the deletion walks over: folder and material records, the
blob store (stored file paths) with a count of failed unlinks, and the
record-deletion log. -/
structure Store where
  folders : List Folder
  materials : List Material
  blobs : List String
  warnings : Nat
  log : List DelEvent
deriving DecidableEq, Repr

/-- Best-effort `fs.unlink` of one material's file: on success the blob
disappears; on failure the error is only logged (counted here).  Records
are untouched either way. -/
def unlinkBlob (ok : String → Bool) (st : Store) (m : Material) : Store :=
  match m.filePath with
  | none => st
  | some p =>
      if ok p then { st with blobs := st.blobs.erase p }
      else { st with warnings := st.warnings + 1 }

/-- The material phase of `deleteFolder`: fetch the materials directly
in the folder, unlink each one's file (best-effort), then `deleteMany`
their records. -/
def deleteMaterialsOf (ok : String → Bool) (fid : Nat) (st : Store) : Store :=
  let withUnlinks :=
    (st.materials.filter (fun m => m.folder == some fid)).foldl (unlinkBlob ok) st
  { withUnlinks with
    materials := withUnlinks.materials.filter (fun m => !(m.folder == some fid))
    log := withUnlinks.log ++ [DelEvent.materials fid] }

/-- `Folder.findByIdAndDelete`: remove the folder record itself. -/
def deleteFolderRecord (fid : Nat) (st : Store) : Store :=
  { st with
    folders := st.folders.filter (fun f => !(f.id == fid))
    log := st.log ++ [DelEvent.folder fid] }

/-- `Folder.find({ parentFolder: folderId })`. -/
def childrenOf (fs : List Folder) (fid : Nat) : List Folder :=
  fs.filter (fun f => f.parentFolder == some fid)

/-- The recursive `deleteFolder` helper: fetch the direct subfolders and
recurse into each (each recursive call reading the store the previous
one left); then unlink and `deleteMany` this folder's materials; then
delete the folder record itself.  `fuel` bounds the recursion depth,
standing in for the termination the JavaScript recursion has on an
acyclic hierarchy. -/
def deleteFolderRec (ok : String → Bool) : Nat → Nat → Store → Store
  | 0, _, st => st
  | fuel + 1, fid, st =>
      deleteFolderRecord fid
        (deleteMaterialsOf ok fid
          ((childrenOf st.folders fid).foldl
            (fun s c => deleteFolderRec ok fuel c.id s) st))

/-- `Desc fs root x`: the id `x` lies in the subtree rooted at `root`,
following the `parentFolder` pointers of the records `fs`. -/
inductive Desc (fs : List Folder) (root : Nat) : Nat → Prop where
  | refl : Desc fs root root
  | step {f : Folder} {p : Nat} : f ∈ fs → f.parentFolder = some p →
      Desc fs root p → Desc fs root f.id

/-- Acyclicity certificate: a measure strictly decreasing from every
folder to its parent (children sit strictly below their parents). -/
def HeightOk (fs : List Folder) (depth : Nat → Nat) : Prop :=
  ∀ f ∈ fs, ∀ p, f.parentFolder = some p → depth f.id < depth p

/-- Decidable form of `HeightOk` over a concrete record list. -/
def heightOkB (fs : List Folder) (depth : Nat → Nat) : Bool :=
  fs.all (fun f =>
    match f.parentFolder with
    | none => true
    | some p => decide (depth f.id < depth p))

/-- The folder ids are pairwise distinct (as Mongo `_id`s are). -/
def NodupIds (fs : List Folder) : Prop :=
  (fs.map (fun f => f.id)).Nodup

instance decNodupIds (fs : List Folder) : Decidable (NodupIds fs) := by
  unfold NodupIds
  exact List.nodupDecidable _

/-- The two stores agree on everything the claim is about: records and
the deletion log (blobs and warnings may differ). -/
def RecordsEq (s t : Store) : Prop :=
  s.folders = t.folders ∧ s.materials = t.materials ∧ s.log = t.log

/-- A material stored inside `demoChildFolder`, with a file. -/
def demoDelMaterial : Material :=
  { demoEligibleMaterial with id := 9, folder := some 2 }

/-- A two-level store: root folder 1, child folder 2, one material with
a file inside the child. -/
def demoDelStore : Store :=
  { folders := demoFolderStore
    materials := [demoDelMaterial]
    blobs := ["/uploads/t1/lab.pdf"]
    warnings := 0
    log := [] }

/-- A height measure for `demoDelStore` (the child sits below the
root). -/
def demoDepth : Nat → Nat := fun i => 2 - i

end BioPlatform

open BioPlatform

/-- C1: counterexample.  A grade-12 EST student and a non-public,
unshared material with matching grade (indeed `program = "Both"`): the
material does not appear in the student's list (`ownerScope =
eligible`), and the get route does not allow the read either — it
throws (500) at the `material.sharedWith.some` call — although the
claim says eligibility alone allows both reads. -/
theorem C1_counterexample :
    gradeProgramMatch demoStudent.studentInfo demoEligibleMaterial.grade
      demoEligibleMaterial.program = true ∧
    demoEligibleMaterial.isPublic = false ∧
    listMatch demoStudent noFilters demoEligibleMaterial = false ∧
    getMaterialCheck demoStudent demoEligibleMaterial = GetOutcome.serverError := by
  refine ⟨rfl, rfl, ?_, ?_⟩ <;> decide

/-- C1 (amended): eligibility alone never grants a student read access
to materials.  A student's list shows a material iff it is public and
grade/program-eligible (the query's share clause can match no document,
as the Material schema stores no grants); a student's get is allowed
iff the material is public, and on every non-public material the route
throws (500) before responding — neither eligibility nor a share grant
can ever admit the read. -/
theorem C1_amended_access (u : User) (m : Material) (h : u.role = Role.student) :
    (listMatch u noFilters m = true ↔
      (m.isPublic = true ∧
        gradeProgramMatch u.studentInfo m.grade m.program = true)) ∧
    (getMaterialCheck u m = GetOutcome.allow ↔ m.isPublic = true) ∧
    (m.isPublic = false → getMaterialCheck u m = GetOutcome.serverError) := by
  refine ⟨?_, ?_, ?_⟩
  · simp [listMatch, listBaseMatch, h, filtersMatch, noFilters, sharedWithClause,
      Bool.and_eq_true]
  · cases hp : m.isPublic <;> simp [getMaterialCheck, h, hp]
  · intro hp
    simp [getMaterialCheck, h, hp]

/-- Witness for `C1_amended_access` at the concrete student and
material. -/
theorem C1_amended_access_witness :
    (listMatch demoStudent noFilters demoEligibleMaterial = true ↔
      (demoEligibleMaterial.isPublic = true ∧
        gradeProgramMatch demoStudent.studentInfo demoEligibleMaterial.grade
          demoEligibleMaterial.program = true)) ∧
    (getMaterialCheck demoStudent demoEligibleMaterial = GetOutcome.allow ↔
      demoEligibleMaterial.isPublic = true) ∧
    (demoEligibleMaterial.isPublic = false →
      getMaterialCheck demoStudent demoEligibleMaterial = GetOutcome.serverError) :=
  C1_amended_access demoStudent demoEligibleMaterial rfl

/-- C5: counterexample.  A public material (`isPublic = true`) owned by
teacher `"t1"`: the get and download access checks deny teacher `"t2"`,
although the claim says a read is allowed for every principal once the
entity is public. -/
theorem C5_counterexample :
    demoPublicMaterial.isPublic = true ∧
    demoOtherTeacher.id ≠ demoPublicMaterial.owner ∧
    getMaterialAccess demoOtherTeacher demoPublicMaterial = false ∧
    downloadAccess demoOtherTeacher demoPublicMaterial = false := by
  refine ⟨rfl, ?_, ?_, ?_⟩ <;> decide

theorem ownerCheck_allow_iff (b : Bool) :
    ((if b then GetOutcome.allow else GetOutcome.denied) == GetOutcome.allow) = true ↔
      b = true := by
  cases b <;> simp

/-- C5 (amended): the public flag grants read only to students.  A
student passes the get/download check on any public material; a
non-student principal passes iff they own the material, the public flag
notwithstanding. -/
theorem C5_amended_public_read (u : User) (m : Material) :
    (u.role = Role.student → m.isPublic = true →
      getMaterialAccess u m = true ∧ downloadAccess u m = true) ∧
    (u.role ≠ Role.student →
      (getMaterialAccess u m = true ↔ m.owner = u.id) ∧
      (downloadAccess u m = true ↔ m.owner = u.id)) := by
  constructor
  · intro hrole hpub
    constructor <;>
      simp [getMaterialAccess, downloadAccess, getMaterialCheck, downloadCheck,
        hrole, hpub]
  · intro hrole
    cases hr : u.role with
    | student => exact absurd hr hrole
    | teacher =>
        constructor <;>
          · simp only [getMaterialAccess, downloadAccess, getMaterialCheck,
              downloadCheck, hr]
            rw [ownerCheck_allow_iff]
            exact beq_iff_eq
    | admin =>
        constructor <;>
          · simp only [getMaterialAccess, downloadAccess, getMaterialCheck,
              downloadCheck, hr]
            rw [ownerCheck_allow_iff]
            exact beq_iff_eq

/-- Witness for `C5_amended_public_read`: the non-student branch at the
concrete teacher and public material. -/
theorem C5_amended_public_read_witness :
    (getMaterialAccess demoOtherTeacher demoPublicMaterial = true ↔
      demoPublicMaterial.owner = demoOtherTeacher.id) ∧
    (downloadAccess demoOtherTeacher demoPublicMaterial = true ↔
      demoPublicMaterial.owner = demoOtherTeacher.id) :=
  (C5_amended_public_read demoOtherTeacher demoPublicMaterial).2 (by decide)

/-- C7: counterexample.  The SQLite backend's create route accepts a
link-type material with no URL: the handler performs no URL presence
check, and the row it hands to the INSERT has a NULL url yet satisfies
every CHECK and foreign-key constraint of the materials table, so the
create succeeds (201) — while the claim says such a create fails with a
`ValidationError`. -/
theorem C7_counterexample :
    demoSqlLinkPayload.mtype = "link" ∧
    demoSqlLinkPayload.url = none ∧
    createMaterialSql 7 demoSqlLinkPayload = SqlCreateOutcome.insert demoSqlLinkRow ∧
    demoSqlLinkRow.url = none ∧
    sqlMaterialRowOk demoCourseIds [] demoSqlLinkRow = true := by
  refine ⟨rfl, rfl, ?_, rfl, ?_⟩ <;> decide

/-- C7 (amended): in the Mongo route, link without URL and non-link
without file fail with 400s as claimed, and a link create with a URL
stores the URL and no file reference — but only when a valid owned
folder (and an in-enum priority) is supplied, because the Material
schema marks `folder` required and `material.save()` rejects a
folderless document: a folderless link create ends in a 500, not a
success.  The SQLite route performs no URL presence check and hands the
INSERT a row with the URL copied as-is (NULL when absent). -/
theorem C7_amended_create_validation :
    (∀ (folders : List Folder) (u : User) (p : CreatePayload) (n : Nat),
      validatorsPass p = true → folderOk folders u p = true →
      ((p.mtype = "link" → p.url = none →
          createMaterial folders u p n =
            CreateOutcome.badRequest "URL is required for link type") ∧
        (p.mtype ≠ "link" → p.file = none →
          createMaterial folders u p n =
            CreateOutcome.badRequest "File is required for this material type") ∧
        (∀ url fid, p.mtype = "link" → p.url = some url → p.folder = some fid →
          priorities.contains (jsOr p.priority "medium") = true →
          ∃ m, createMaterial folders u p n = CreateOutcome.created m ∧
            m.url = some url ∧ m.fileName = none ∧ m.filePath = none ∧
            m.folder = some fid) ∧
        (∀ url, p.mtype = "link" → p.url = some url → p.folder = none →
          createMaterial folders u p n = CreateOutcome.serverError))) ∧
    (∀ (uid : Nat) (q : SqlCreatePayload),
      1 ≤ (jsTrim q.title).length → q.mtype = "link" →
      ∃ m, createMaterialSql uid q = SqlCreateOutcome.insert m ∧ m.url = q.url) := by
  constructor
  · intro folders u p n hv hfo
    have hbody : createMaterial folders u p n = createMaterialBody u p n := by
      cases hpf : p.folder with
      | none => simp [createMaterial, hv, hpf]
      | some fid =>
          have hany : folders.any (fun f => f.id == fid && f.owner == u.id) = true := by
            have h' := hfo
            rw [folderOk, hpf] at h'
            exact h'
          simp [createMaterial, hv, hpf, hany]
    refine ⟨?_, ?_, ?_, ?_⟩
    · intro hm hu
      rw [hbody]
      simp [createMaterialBody, hm, hu]
    · intro hm hfile
      have hb : (p.mtype == "link") = false := by
        simp only [beq_eq_false_iff_ne, ne_eq]
        exact hm
      rw [hbody]
      simp [createMaterialBody, hb, hfile]
    · intro url fid hm hu hpf hprio
      have h : createMaterial folders u p n = CreateOutcome.created
          { id := n, title := p.title, description := p.description, mtype := p.mtype
            url := some url, fileName := none, filePath := none, fileSize := none
            folder := some fid, owner := u.id, course := p.course, grade := p.grade
            program := p.program, tags := splitTags p.tags
            isPublic := p.isPublic == some "true"
            viewCount := 0, downloadCount := 0
            priority := jsOr p.priority "medium" } := by
        have hprio' : jsOr p.priority "medium" ∈ priorities := by simpa using hprio
        rw [hbody]
        simp [createMaterialBody, hm, hu, hpf, saveMaterial, materialSchemaValid, hprio']
      exact ⟨_, h, rfl, rfl, rfl, rfl⟩
    · intro url hm hu hpf
      rw [hbody]
      simp [createMaterialBody, hm, hu, hpf, saveMaterial, materialSchemaValid]
  · intro uid q htitle hlink
    have hb : materialTypes.contains q.mtype = true := by rw [hlink]; decide
    have h : createMaterialSql uid q = SqlCreateOutcome.insert
        { title := q.title, description := q.description, mtype := q.mtype
          file_name := none, file_path := none, file_size := none, url := q.url
          folder_id := q.folder_id, course_id := q.course_id, owner_id := uid
          grade := q.grade, program := q.program, tags := q.tags
          is_public := if q.is_public == some "true" then 1 else 0
          priority := jsOr q.priority "medium" } := by
      simp [createMaterialSql, htitle, hb, hlink]
      decide
    exact ⟨_, h, rfl⟩

/-- Witness for `C7_amended_create_validation` at concrete payloads:
the two 400s, the 500 of a folderless link create, and the successful
link create inside an owned folder. -/
theorem C7_amended_create_validation_witness :
    createMaterial [] demoOtherTeacher demoLinkNoUrlPayload 10 =
      CreateOutcome.badRequest "URL is required for link type" ∧
    createMaterial [] demoOtherTeacher demoPdfNoFilePayload 10 =
      CreateOutcome.badRequest "File is required for this material type" ∧
    createMaterial [] demoOtherTeacher demoLinkWithUrlPayload 10 =
      CreateOutcome.serverError ∧
    (∃ m, createMaterial [demoRootFolder] demoOwnerTeacher
        demoLinkWithUrlFolderPayload 10 = CreateOutcome.created m ∧
      m.url = some "https://x" ∧ m.fileName = none ∧ m.filePath = none ∧
      m.folder = some 1) := by
  refine ⟨?_, ?_, ?_, ?_⟩
  · exact (C7_amended_create_validation.1 [] demoOtherTeacher demoLinkNoUrlPayload 10
      (by decide) (by decide)).1 rfl rfl
  · exact (C7_amended_create_validation.1 [] demoOtherTeacher demoPdfNoFilePayload 10
      (by decide) (by decide)).2.1 (by decide) rfl
  · exact (C7_amended_create_validation.1 [] demoOtherTeacher demoLinkWithUrlPayload 10
      (by decide) (by decide)).2.2.2 "https://x" rfl rfl rfl
  · exact (C7_amended_create_validation.1 [demoRootFolder] demoOwnerTeacher
      demoLinkWithUrlFolderPayload 10 (by decide) (by decide)).2.2.1 "https://x" 1
      rfl rfl rfl (by decide)

/-- C8: the share route cannot store a grant.  With validator-passing
input and an owner-matched material, the loop over `studentIds` runs at
least once and its first statement dereferences `material.sharedWith`,
which the Material schema does not define: every such request ends in a
500, and no share grant is ever created or updated — the schema offers
no storage for one — so the claimed upsert/uniqueness behavior never
executes. -/
theorem C8_share_route_throws (materials : List Material) (u : User) (mid : Nat)
    (studentIds : List String) (perm : String)
    (hids : 1 ≤ studentIds.length) (hperm : perm = "read" ∨ perm = "write")
    (hfound : (materials.find? (fun m => m.id == mid && m.owner == u.id)).isSome
      = true) :
    shareMaterial materials u mid studentIds perm = ShareOutcome.serverError := by
  have hpb : (perm == "read" || perm == "write") = true := by
    rcases hperm with h | h <;> simp [h]
  obtain ⟨m, hm⟩ := Option.isSome_iff_exists.mp hfound
  simp [shareMaterial, hids, hpb, hm]

/-- Witness for `C8_share_route_throws`: the spec scenario's very first
step — the owner sharing a material with student `"S"` at permission
`read` — already answers 500. -/
theorem C8_share_route_throws_witness :
    shareMaterial [demoEligibleMaterial] demoOwnerTeacher 1 ["S"] "read" =
      ShareOutcome.serverError :=
  C8_share_route_throws [demoEligibleMaterial] demoOwnerTeacher 1 ["S"] "read"
    (by decide) (Or.inl rfl) (by decide)

/-- C6: counterexample.  Starting from counter 0, the interleaving
read₁ read₂ save₁ save₂ of two downloads completes both requests yet
leaves the counter at 1, not the claimed 2. -/
theorem C6_counterexample :
    (runRMW [true, false, true, false] 0).pc1 = 2 ∧
    (runRMW [true, false, true, false] 0).pc2 = 2 ∧
    (runRMW [true, false, true, false] 0).count = 1 := by
  refine ⟨?_, ?_, ?_⟩ <;> decide

/-- C6: the counter updates are read-modify-write, not atomic
increments, so an interleaving of two concurrent downloads loses one
update.  Under the schedule read₁ read₂ save₁ save₂ both requests
complete (`pc = 2`) yet the counter rises by 1, not 2; only the fully
sequential schedule yields 2. -/
theorem C6_lost_update (c0 : Nat) :
    ((runRMW [true, false, true, false] c0).pc1 = 2 ∧
     (runRMW [true, false, true, false] c0).pc2 = 2 ∧
     (runRMW [true, false, true, false] c0).count = c0 + 1) ∧
    (runRMW [true, true, false, false] c0).count = c0 + 2 := by
  refine ⟨⟨?_, ?_, ?_⟩, ?_⟩ <;> simp [runRMW, stepRMW]

/-- C9: counterexample.  The session update route assigns any provided
status: an ended session moves back to `scheduled` and a cancelled
session moves to `started`, so transitions are neither monotonic nor is
cancellation terminal. -/
theorem C9_counterexample :
    updateSession [demoEndedSession] "t1" 1 (statusPatch "scheduled") =
      UpdateSessionOutcome.updated { demoEndedSession with status := "scheduled" } ∧
    updateSession [demoCancelledSession] "t1" 2 (statusPatch "started") =
      UpdateSessionOutcome.updated { demoCancelledSession with status := "started" } := by
  constructor <;> decide

/-- C9 (amended): the update route enforces no transition relation on
status.  Whenever the session is found and the patch carries a non-empty
status inside the schema enum, the update succeeds and the stored status
becomes exactly the requested value, whatever the previous status was. -/
theorem C9_amended_status_update (sessions : List Session) (uid : String)
    (sid : Nat) (p : SessionPatch) (s : Session) (v : String)
    (hfind : sessions.find? (fun t => t.id == sid && t.teacher == uid) = some s)
    (hv : p.status = some v) (hne : v ≠ "")
    (henum : sessionStatuses.contains v = true) :
    updateSession sessions uid sid p =
      UpdateSessionOutcome.updated (applySessionPatch s p) ∧
    (applySessionPatch s p).status = v := by
  have hst : (applySessionPatch s p).status = v := by
    simp [applySessionPatch, hv, hne]
  refine ⟨?_, hst⟩
  simp only [updateSession, hfind, hst, henum, if_true]

/-- Witness for `C9_amended_status_update`: a cancelled session moved
back to `scheduled`. -/
theorem C9_amended_status_update_witness :
    updateSession [demoCancelledSession] "t1" 2 (statusPatch "scheduled") =
      UpdateSessionOutcome.updated
        (applySessionPatch demoCancelledSession (statusPatch "scheduled")) ∧
    (applySessionPatch demoCancelledSession (statusPatch "scheduled")).status =
      "scheduled" :=
  C9_amended_status_update [demoCancelledSession] "t1" 2 (statusPatch "scheduled")
    demoCancelledSession "scheduled" (by decide) rfl (by decide) (by decide)

theorem progress_rate_def (sessions : List Session) (stuId : String)
    (info : StudentInfo) (now : Int) :
    (getStudentProgress sessions stuId info now).attendanceRate =
      round (if 0 < (getStudentProgress sessions stuId info now).totalSessions then
        (((getStudentProgress sessions stuId info now).sessionsAttended : ℚ) /
          ((getStudentProgress sessions stuId info now).totalSessions : ℚ)) * 100
      else (0 : ℚ)) := rfl

/-- C10: the attendance rate is the attended-sessions count over the
eligible-past-sessions count times 100, rounded to the nearest integer,
and is 0 when the denominator is 0. -/
theorem C10_attendance_rate (sessions : List Session) (stuId : String)
    (info : StudentInfo) (now : Int) :
    ((getStudentProgress sessions stuId info now).totalSessions = 0 →
      (getStudentProgress sessions stuId info now).attendanceRate = 0) ∧
    (0 < (getStudentProgress sessions stuId info now).totalSessions →
      (getStudentProgress sessions stuId info now).attendanceRate =
        round (((getStudentProgress sessions stuId info now).sessionsAttended : ℚ) * 100 /
          ((getStudentProgress sessions stuId info now).totalSessions : ℚ))) := by
  constructor
  · intro h
    rw [progress_rate_def, h]
    simp
  · intro h
    rw [progress_rate_def, if_pos h, div_mul_eq_mul_div]

/-- Witness for `C10_attendance_rate`: one attended session out of two
eligible past ones (a third, future session is excluded). -/
theorem C10_attendance_rate_witness :
    (getStudentProgress demoSessions "stu1" demoStudent.studentInfo 100).attendanceRate =
      round (((getStudentProgress demoSessions "stu1" demoStudent.studentInfo 100).sessionsAttended : ℚ) * 100 /
        ((getStudentProgress demoSessions "stu1" demoStudent.studentInfo 100).totalSessions : ℚ)) :=
  (C10_attendance_rate demoSessions "stu1" demoStudent.studentInfo 100).2 (by decide)

/-- C3: immediately after a successful create, the folder's path is its
parent's current path plus `"/"` plus its name, or just its name at the
root. -/
theorem C3_folder_path_on_create (folders : List Folder) (uid : String)
    (p : FolderPayload) (newId : Nat) (folders' : List Folder) (f : Folder)
    (h : createFolder folders uid p newId = FolderOutcome.ok folders' f) :
    (∀ pid, f.parentFolder = some pid →
      ∃ parent, findFolderById folders pid = some parent ∧
        f.path = parent.path ++ "/" ++ f.name) ∧
    (f.parentFolder = none → f.path = f.name) := by
  unfold createFolder at h
  split at h
  · exact absurd h (by simp)
  · split at h
    · exact absurd h (by simp)
    · split at h
      · exact absurd h (by simp)
      · rename_i path heq
        injection h with h1 h2
        subst h2
        constructor
        · intro pid hpid
          simp only at hpid
          rw [hpid] at heq
          simp only [computePath] at heq
          obtain ⟨parent, hfind, hpath⟩ := Option.map_eq_some'.mp heq
          exact ⟨parent, hfind, by simp [← hpath]⟩
        · intro hroot
          simp only at hroot
          rw [hroot] at heq
          simp only [computePath, Option.some_inj] at heq
          simp [← heq]

/-- Witness for `C3_folder_path_on_create`: creating `"Quizzes"` under
the root `"Sem1"` yields path `"Sem1/Quizzes"`. -/
theorem C3_folder_path_on_create_witness :
    ∃ parent, findFolderById demoFolderStore 1 = some parent ∧
      demoCreatedChild.path = parent.path ++ "/" ++ demoCreatedChild.name :=
  (C3_folder_path_on_create demoFolderStore "t1" demoCreateChildPayload 7
    (demoFolderStore ++ [demoCreatedChild]) demoCreatedChild (by decide)).1 1 (by decide)

/-- C4: after a successful folder update, the folder's own path is
recomputed from its parent's current path and its (possibly new) name;
the store is the old store with only that record replaced, so every
other folder — descendants included, whose stored paths therefore go
stale — keeps its exact old record. -/
theorem C4_rename_frame (folders : List Folder) (uid : String) (fid : Nat)
    (p : FolderUpdatePayload) (folders' : List Folder) (f' : Folder)
    (h : updateFolder folders uid fid p = FolderOutcome.ok folders' f') :
    (∀ pid, f'.parentFolder = some pid →
      ∃ parent, findFolderById folders pid = some parent ∧
        f'.path = parent.path ++ "/" ++ f'.name) ∧
    (f'.parentFolder = none → f'.path = f'.name) ∧
    folders' = folders.map (fun g => if g.id == fid then f' else g) ∧
    (∀ g ∈ folders, g.id ≠ fid → g ∈ folders') := by
  unfold updateFolder at h
  split at h
  · exact absurd h (by simp)
  · split at h
    · exact absurd h (by simp)
    · rename_i folder hfind
      split at h
      · exact absurd h (by simp)
      · split at h
        · exact absurd h (by simp)
        · rename_i path heq
          injection h with h1 h2
          subst h2
          subst h1
          refine ⟨?_, ?_, rfl, ?_⟩
          · intro pid hpid
            simp only at hpid
            rw [hpid] at heq
            simp only [computePath] at heq
            obtain ⟨parent, hfind', hpath⟩ := Option.map_eq_some'.mp heq
            exact ⟨parent, hfind', by simp [← hpath]⟩
          · intro hroot
            simp only at hroot
            rw [hroot] at heq
            simp only [computePath, Option.some_inj] at heq
            simp [← heq]
          · intro g hg hne
            refine List.mem_map.mpr ⟨g, hg, ?_⟩
            have : (g.id == fid) = false := by
              simp only [beq_eq_false_iff_ne, ne_eq]; exact hne
            simp [this]

/-- Witness for `C4_rename_frame`: renaming the root `"Sem1"` to
`"Semester1"` recomputes only the root's path; the child record — stale
path `"Sem1/Labs"` included — survives unchanged. -/
theorem C4_rename_frame_witness :
    demoRenamedRoot.path = demoRenamedRoot.name ∧
    demoRenamedStore =
      demoFolderStore.map (fun g => if g.id == 1 then demoRenamedRoot else g) ∧
    demoChildFolder ∈ demoRenamedStore :=
  have t := C4_rename_frame demoFolderStore "t1" 1 demoRenamePatch
    demoRenamedStore demoRenamedRoot (by decide)
  ⟨t.2.1 rfl, t.2.2.1, t.2.2.2 demoChildFolder (by decide) (by decide)⟩

theorem desc_mono {fs fs' : List Folder} {root x : Nat}
    (hsub : ∀ f, f ∈ fs' → f ∈ fs) (h : Desc fs' root x) : Desc fs root x := by
  induction h with
  | refl => exact Desc.refl
  | step hf hp _ ih => exact Desc.step (hsub _ hf) hp ih

theorem desc_depth_le {fs : List Folder} {depth : Nat → Nat} {root x : Nat}
    (hh : HeightOk fs depth) (h : Desc fs root x) : depth x ≤ depth root := by
  induction h with
  | refl => exact le_refl _
  | step hf hp _ ih => exact le_trans (le_of_lt (hh _ hf _ hp)) ih

theorem desc_trans {fs : List Folder} {a b x : Nat}
    (h1 : Desc fs a b) (h2 : Desc fs b x) : Desc fs a x := by
  induction h2 with
  | refl => exact h1
  | step hf hp _ ih => exact Desc.step hf hp ih

theorem desc_top_split {fs : List Folder} {root x : Nat} (h : Desc fs root x) :
    x = root ∨ ∃ c ∈ fs, c.parentFolder = some root ∧ Desc fs c.id x := by
  induction h with
  | refl => exact Or.inl rfl
  | step hf hp _ ih =>
      rcases ih with rfl | ⟨c, hc, hcp, hcd⟩
      · exact Or.inr ⟨_, hf, hp, Desc.refl⟩
      · exact Or.inr ⟨c, hc, hcp, Desc.step hf hp hcd⟩

theorem desc_transfer {fs fs' : List Folder} {root x : Nat}
    (h : Desc fs root x)
    (hkeep : ∀ r ∈ fs, Desc fs root r.id → r ∈ fs') : Desc fs' root x := by
  induction h with
  | step hf hp hd ih => exact Desc.step (hkeep _ hf (Desc.step hf hp hd)) hp ih
  | refl => exact Desc.refl

theorem desc_inv {fs : List Folder} {root x : Nat} (h : Desc fs root x) :
    x = root ∨ ∃ f ∈ fs, f.id = x ∧ ∃ p, f.parentFolder = some p ∧ Desc fs root p := by
  cases h with
  | refl => exact Or.inl rfl
  | step hf hp hd => exact Or.inr ⟨_, hf, rfl, _, hp, hd⟩

theorem folder_id_unique {fs : List Folder} (hnd : NodupIds fs)
    {f g : Folder} (hf : f ∈ fs) (hg : g ∈ fs) (h : f.id = g.id) : f = g := by
  have hnd' : (fs.map (fun f => f.id)).Nodup := hnd
  exact List.inj_on_of_nodup_map hnd' hf hg h

theorem desc_linear {fs : List Folder} (hnd : NodupIds fs) {a b x : Nat}
    (h1 : Desc fs a x) : Desc fs b x → Desc fs a b ∨ Desc fs b a := by
  induction h1 with
  | refl => intro h2; exact Or.inr h2
  | @step f p hf hp hd ih =>
      intro h2
      rcases desc_inv h2 with heq | ⟨g, hg, hgid, p', hgp, hgd⟩
      · exact Or.inl (heq ▸ Desc.step hf hp hd)
      · have hgf : g = f := folder_id_unique hnd hg hf hgid
        subst hgf
        rw [hp] at hgp
        have hpp : p = p' := Option.some.inj hgp
        subst hpp
        exact ih hgd

theorem desc_child_not_above {fs : List Folder} {depth : Nat → Nat}
    (hnd : NodupIds fs) (hh : HeightOk fs depth) {c c' : Folder} {fid : Nat}
    (hc : c ∈ fs) (hc' : c' ∈ fs)
    (hcp : c.parentFolder = some fid) (hcp' : c'.parentFolder = some fid)
    (hidne : c'.id ≠ c.id) (h : Desc fs c.id c'.id) : False := by
  rcases desc_inv h with heq | ⟨g, hg, hgid, p', hgp, hgd⟩
  · exact hidne heq
  · have hg' : g = c' := folder_id_unique hnd hg hc' hgid
    subst hg'
    rw [hcp'] at hgp
    have hpp : fid = p' := Option.some.inj hgp
    subst hpp
    have h1 : depth fid ≤ depth c.id := desc_depth_le hh hgd
    have h2 : depth c.id < depth fid := hh _ hc _ hcp
    omega

theorem desc_sibling_disjoint {fs : List Folder} {depth : Nat → Nat}
    (hnd : NodupIds fs) (hh : HeightOk fs depth) {c c' : Folder} {fid x : Nat}
    (hc : c ∈ fs) (hc' : c' ∈ fs)
    (hcp : c.parentFolder = some fid) (hcp' : c'.parentFolder = some fid)
    (hne : c ≠ c') (h1 : Desc fs c.id x) (h2 : Desc fs c'.id x) : False := by
  have hidne : c.id ≠ c'.id := fun h => hne (folder_id_unique hnd hc hc' h)
  rcases desc_linear hnd h1 h2 with h | h
  · exact desc_child_not_above hnd hh hc hc' hcp hcp' (fun e => hidne e.symm) h
  · exact desc_child_not_above hnd hh hc' hc hcp' hcp hidne h

theorem heightOk_mono {fs fs' : List Folder} {depth : Nat → Nat}
    (hsub : ∀ f ∈ fs', f ∈ fs) (hh : HeightOk fs depth) : HeightOk fs' depth :=
  fun f hf p hp => hh f (hsub f hf) p hp

theorem heightOkB_sound {fs : List Folder} {depth : Nat → Nat}
    (h : heightOkB fs depth = true) : HeightOk fs depth := by
  intro f hf p hp
  have := (List.all_eq_true.mp h) f hf
  rw [hp] at this
  simpa using this

theorem unlinkBlob_records (ok : String → Bool) (st : Store) (m : Material) :
    (unlinkBlob ok st m).folders = st.folders ∧
    (unlinkBlob ok st m).materials = st.materials ∧
    (unlinkBlob ok st m).log = st.log := by
  unfold unlinkBlob
  cases m.filePath with
  | none => exact ⟨rfl, rfl, rfl⟩
  | some p => by_cases h : ok p <;> simp [h]

theorem unlink_foldl_records (ok : String → Bool) (ms : List Material) :
    ∀ st : Store,
      (ms.foldl (unlinkBlob ok) st).folders = st.folders ∧
      (ms.foldl (unlinkBlob ok) st).materials = st.materials ∧
      (ms.foldl (unlinkBlob ok) st).log = st.log := by
  induction ms with
  | nil => intro st; exact ⟨rfl, rfl, rfl⟩
  | cons m rest ih =>
      intro st
      have h1 := unlinkBlob_records ok st m
      have h2 := ih (unlinkBlob ok st m)
      exact ⟨h2.1.trans h1.1, h2.2.1.trans h1.2.1, h2.2.2.trans h1.2.2⟩

theorem deleteMaterialsOf_spec (ok : String → Bool) (fid : Nat) (st : Store) :
    (deleteMaterialsOf ok fid st).folders = st.folders ∧
    (deleteMaterialsOf ok fid st).materials =
      st.materials.filter (fun m => !(m.folder == some fid)) ∧
    (deleteMaterialsOf ok fid st).log = st.log ++ [DelEvent.materials fid] := by
  have h := unlink_foldl_records ok
    (st.materials.filter (fun m => m.folder == some fid)) st
  refine ⟨?_, ?_, ?_⟩ <;> simp only [deleteMaterialsOf] <;>
    simp [h.1, h.2.1, h.2.2]

theorem deleteFolderRecord_spec (fid : Nat) (st : Store) :
    (deleteFolderRecord fid st).folders =
      st.folders.filter (fun f => !(f.id == fid)) ∧
    (deleteFolderRecord fid st).materials = st.materials ∧
    (deleteFolderRecord fid st).log = st.log ++ [DelEvent.folder fid] :=
  ⟨rfl, rfl, rfl⟩

theorem nodupIds_sublist {fs fs' : List Folder}
    (hsub : fs'.Sublist fs) (hnd : NodupIds fs) : NodupIds fs' := by
  have hnd' : (fs.map (fun f => f.id)).Nodup := hnd
  exact List.Nodup.sublist (hsub.map _) hnd'

theorem delRec_sublist (ok : String → Bool) :
    ∀ (fuel fid : Nat) (st : Store),
      (deleteFolderRec ok fuel fid st).folders.Sublist st.folders ∧
      (deleteFolderRec ok fuel fid st).materials.Sublist st.materials
  | 0, _, _ => ⟨List.Sublist.refl _, List.Sublist.refl _⟩
  | fuel + 1, fid, st => by
      have inner : ∀ (cs : List Folder) (st0 : Store),
          ((cs.foldl (fun s c => deleteFolderRec ok fuel c.id s) st0).folders.Sublist
            st0.folders) ∧
          ((cs.foldl (fun s c => deleteFolderRec ok fuel c.id s) st0).materials.Sublist
            st0.materials) := by
        intro cs
        induction cs with
        | nil => intro st0; exact ⟨List.Sublist.refl _, List.Sublist.refl _⟩
        | cons c rest ih =>
            intro st0
            have h1 := delRec_sublist ok fuel c.id st0
            have h2 := ih (deleteFolderRec ok fuel c.id st0)
            exact ⟨h2.1.trans h1.1, h2.2.trans h1.2⟩
      have hF := inner (childrenOf st.folders fid) st
      have hm := deleteMaterialsOf_spec ok fid
        ((childrenOf st.folders fid).foldl
          (fun s c => deleteFolderRec ok fuel c.id s) st)
      have hr := deleteFolderRecord_spec fid
        (deleteMaterialsOf ok fid
          ((childrenOf st.folders fid).foldl
            (fun s c => deleteFolderRec ok fuel c.id s) st))
      constructor
      · show (deleteFolderRecord fid _).folders.Sublist st.folders
        rw [hr.1, hm.1]
        exact (List.filter_sublist _).trans hF.1
      · show (deleteFolderRecord fid _).materials.Sublist st.materials
        rw [hr.2.1, hm.2.1]
        exact (List.filter_sublist _).trans hF.2

theorem delRec_foldl_sublist (ok : String → Bool) (fuel : Nat)
    (cs : List Folder) : ∀ st0 : Store,
      ((cs.foldl (fun s c => deleteFolderRec ok fuel c.id s) st0).folders.Sublist
        st0.folders) ∧
      ((cs.foldl (fun s c => deleteFolderRec ok fuel c.id s) st0).materials.Sublist
        st0.materials) := by
  induction cs with
  | nil => intro st0; exact ⟨List.Sublist.refl _, List.Sublist.refl _⟩
  | cons c rest ih =>
      intro st0
      have h1 := delRec_sublist ok fuel c.id st0
      have h2 := ih (deleteFolderRec ok fuel c.id st0)
      exact ⟨h2.1.trans h1.1, h2.2.trans h1.2⟩

theorem delRec_log (ok : String → Bool) :
    ∀ (fuel fid : Nat) (st : Store),
      ∃ Δ, (deleteFolderRec ok fuel fid st).log = st.log ++ Δ ∧
        ∀ g ∈ st.folders, g ∉ (deleteFolderRec ok fuel fid st).folders →
          DelEvent.folder g.id ∈ Δ
  | 0, _, st => ⟨[], by simp [deleteFolderRec], fun g hg hng => absurd hg hng⟩
  | fuel + 1, fid, st => by
      have inner : ∀ (cs : List Folder) (st0 : Store),
          ∃ Δ, ((cs.foldl (fun s c => deleteFolderRec ok fuel c.id s) st0).log =
            st0.log ++ Δ) ∧
            ∀ g ∈ st0.folders,
              g ∉ (cs.foldl (fun s c => deleteFolderRec ok fuel c.id s) st0).folders →
                DelEvent.folder g.id ∈ Δ := by
        intro cs
        induction cs with
        | nil =>
            intro st0
            exact ⟨[], by simp, fun g hg hng => absurd hg hng⟩
        | cons c rest ih =>
            intro st0
            obtain ⟨d1, hlog1, hrem1⟩ := delRec_log ok fuel c.id st0
            obtain ⟨d2, hlog2, hrem2⟩ := ih (deleteFolderRec ok fuel c.id st0)
            refine ⟨d1 ++ d2, ?_, ?_⟩
            · show (rest.foldl (fun s c => deleteFolderRec ok fuel c.id s)
                  (deleteFolderRec ok fuel c.id st0)).log = st0.log ++ (d1 ++ d2)
              rw [hlog2, hlog1, List.append_assoc]
            · intro g hg hng
              by_cases hmid : g ∈ (deleteFolderRec ok fuel c.id st0).folders
              · exact List.mem_append.mpr (Or.inr (hrem2 g hmid hng))
              · exact List.mem_append.mpr (Or.inl (hrem1 g hg hmid))
      obtain ⟨df, hlogf, hremf⟩ := inner (childrenOf st.folders fid) st
      have hm := deleteMaterialsOf_spec ok fid
        ((childrenOf st.folders fid).foldl
          (fun s c => deleteFolderRec ok fuel c.id s) st)
      have hr := deleteFolderRecord_spec fid
        (deleteMaterialsOf ok fid
          ((childrenOf st.folders fid).foldl
            (fun s c => deleteFolderRec ok fuel c.id s) st))
      refine ⟨df ++ [DelEvent.materials fid] ++ [DelEvent.folder fid], ?_, ?_⟩
      · show (deleteFolderRecord fid _).log = _
        rw [hr.2.2, hm.2.2, hlogf]
        simp [List.append_assoc]
      · intro g hg hng
        by_cases hF : g ∈ ((childrenOf st.folders fid).foldl
            (fun s c => deleteFolderRec ok fuel c.id s) st).folders
        · have hd : g ∈ (deleteMaterialsOf ok fid
              ((childrenOf st.folders fid).foldl
                (fun s c => deleteFolderRec ok fuel c.id s) st)).folders := by
            rw [hm.1]; exact hF
          have hng' : g ∉ (deleteFolderRecord fid _).folders := hng
          rw [hr.1] at hng'
          have hid : g.id = fid := by
            by_contra hne
            exact hng' (List.mem_filter.mpr ⟨hd, by
              simp only [Bool.not_eq_eq_eq_not, Bool.not_true, beq_eq_false_iff_ne, ne_eq]
              exact hne⟩)
          rw [hid]
          simp
        · have := hremf g hg hF
          simp [List.mem_append, this]

theorem delRec_records_indep (ok ok' : String → Bool) :
    ∀ (fuel fid : Nat) (s t : Store), RecordsEq s t →
      RecordsEq (deleteFolderRec ok fuel fid s) (deleteFolderRec ok' fuel fid t)
  | 0, _, _, _ => fun h => h
  | fuel + 1, fid, s, t => by
      intro h
      have inner : ∀ (cs : List Folder) (s0 t0 : Store), RecordsEq s0 t0 →
          RecordsEq (cs.foldl (fun x c => deleteFolderRec ok fuel c.id x) s0)
            (cs.foldl (fun x c => deleteFolderRec ok' fuel c.id x) t0) := by
        intro cs
        induction cs with
        | nil => intro s0 t0 h0; exact h0
        | cons c rest ih =>
            intro s0 t0 h0
            exact ih _ _ (delRec_records_indep ok ok' fuel c.id s0 t0 h0)
      have hcs : childrenOf t.folders fid = childrenOf s.folders fid := by
        rw [h.1]
      have hfold := inner (childrenOf s.folders fid) s t h
      set sF := (childrenOf s.folders fid).foldl
        (fun x c => deleteFolderRec ok fuel c.id x) s with hsF
      set tF := (childrenOf s.folders fid).foldl
        (fun x c => deleteFolderRec ok' fuel c.id x) t with htF
      have hms := deleteMaterialsOf_spec ok fid sF
      have hmt := deleteMaterialsOf_spec ok' fid tF
      have hrs := deleteFolderRecord_spec fid (deleteMaterialsOf ok fid sF)
      have hrt := deleteFolderRecord_spec fid (deleteMaterialsOf ok' fid tF)
      show RecordsEq (deleteFolderRecord fid (deleteMaterialsOf ok fid sF))
        (deleteFolderRecord fid (deleteMaterialsOf ok' fid
          ((childrenOf t.folders fid).foldl
            (fun x c => deleteFolderRec ok' fuel c.id x) t)))
      rw [hcs]
      refine ⟨?_, ?_, ?_⟩
      · rw [hrs.1, hrt.1, hms.1, hmt.1, hfold.1]
      · rw [hrs.2.1, hrt.2.1, hms.2.1, hmt.2.1, hfold.2.1]
      · rw [hrs.2.2, hrt.2.2, hms.2.2, hmt.2.2, hfold.2.2]

theorem delRec_main (ok : String → Bool) (depth : Nat → Nat) :
    ∀ (fuel fid : Nat) (st : Store),
      HeightOk st.folders depth → NodupIds st.folders → depth fid < fuel →
      (∀ g ∈ (deleteFolderRec ok fuel fid st).folders, ¬ Desc st.folders fid g.id) ∧
      (∀ g ∈ st.folders, g ∉ (deleteFolderRec ok fuel fid st).folders →
        Desc st.folders fid g.id) ∧
      (∀ m ∈ (deleteFolderRec ok fuel fid st).materials, ∀ fl, m.folder = some fl →
        ¬ Desc st.folders fid fl) ∧
      (∀ m ∈ st.materials, m ∉ (deleteFolderRec ok fuel fid st).materials →
        ∃ fl, m.folder = some fl ∧ Desc st.folders fid fl)
  | 0, _, _ => fun _ _ hf => absurd hf (Nat.not_lt_zero _)
  | fuel + 1, fid, st => by
      intro hh hnd hfuel
      have inner : ∀ (cs : List Folder), cs.Nodup →
          (∀ c ∈ cs, c ∈ st.folders ∧ c.parentFolder = some fid ∧ depth c.id < fuel) →
          ∀ (st0 : Store), st0.folders.Sublist st.folders →
            st0.materials.Sublist st.materials →
            (∀ c ∈ cs, ∀ r ∈ st.folders, Desc st.folders c.id r.id → r ∈ st0.folders) →
            (∀ c ∈ cs,
              ∀ g ∈ (cs.foldl (fun s x => deleteFolderRec ok fuel x.id s) st0).folders,
              ¬ Desc st.folders c.id g.id) ∧
            (∀ g ∈ st0.folders,
              g ∉ (cs.foldl (fun s x => deleteFolderRec ok fuel x.id s) st0).folders →
              ∃ c ∈ cs, Desc st.folders c.id g.id) ∧
            (∀ c ∈ cs,
              ∀ m ∈ (cs.foldl (fun s x => deleteFolderRec ok fuel x.id s) st0).materials,
              ∀ fl, m.folder = some fl → ¬ Desc st.folders c.id fl) ∧
            (∀ m ∈ st0.materials,
              m ∉ (cs.foldl (fun s x => deleteFolderRec ok fuel x.id s) st0).materials →
              ∃ c ∈ cs, ∃ fl, m.folder = some fl ∧ Desc st.folders c.id fl) := by
        intro cs
        induction cs with
        | nil =>
            intro _ _ st0 _ _ _
            refine ⟨?_, ?_, ?_, ?_⟩
            · intro c hc; exact absurd hc (List.not_mem_nil c)
            · intro g hg hng; exact absurd hg hng
            · intro c hc; exact absurd hc (List.not_mem_nil c)
            · intro m hmm hnm; exact absurd hmm hnm
        | cons c rest ih =>
            intro hndcs hcs st0 hsubF hsubM hpres
            obtain ⟨hcmem, hcp, hcd⟩ := hcs c (List.mem_cons_self c rest)
            obtain ⟨ki, kii, kiii, kiv⟩ := delRec_main ok depth fuel c.id st0
              (heightOk_mono (fun f hf => hsubF.subset hf) hh)
              (nodupIds_sublist hsubF hnd) hcd
            set st1 := deleteFolderRec ok fuel c.id st0 with hst1
            have hsub1 := delRec_sublist ok fuel c.id st0
            have htransf : ∀ x, Desc st.folders c.id x → Desc st0.folders c.id x := by
              intro x hx
              exact desc_transfer hx (fun r hr hdr =>
                hpres c (List.mem_cons_self c rest) r hr hdr)
            have hpres' : ∀ c' ∈ rest, ∀ r ∈ st.folders,
                Desc st.folders c'.id r.id → r ∈ st1.folders := by
              intro c' hc' r hr hdr
              have hr0 : r ∈ st0.folders :=
                hpres c' (List.mem_cons_of_mem c hc') r hr hdr
              by_contra hnr
              have hdesc0 : Desc st0.folders c.id r.id := kii r hr0 hnr
              have hdescst : Desc st.folders c.id r.id :=
                desc_mono (fun f hf => hsubF.subset hf) hdesc0
              obtain ⟨hc'mem, hc'p, _⟩ := hcs c' (List.mem_cons_of_mem c hc')
              have hcne : c ≠ c' := by
                intro he
                exact (List.nodup_cons.mp hndcs).1 (he ▸ hc')
              exact desc_sibling_disjoint hnd hh hcmem hc'mem hcp hc'p hcne hdescst hdr
            obtain ⟨rb, rc, rd, re⟩ := ih (List.nodup_cons.mp hndcs).2
              (fun c' hc' => hcs c' (List.mem_cons_of_mem c hc'))
              st1 (hsub1.1.trans hsubF) (hsub1.2.trans hsubM) hpres'
            have hfold : (c :: rest).foldl (fun s x => deleteFolderRec ok fuel x.id s) st0 =
                rest.foldl (fun s x => deleteFolderRec ok fuel x.id s) st1 := rfl
            have hsubF' := delRec_foldl_sublist ok fuel rest st1
            refine ⟨?_, ?_, ?_, ?_⟩
            · intro c₀ hc₀ g hg hdesc
              rw [hfold] at hg
              rcases List.mem_cons.mp hc₀ with rfl | hc₀r
              · exact ki g (hsubF'.1.subset hg) (htransf g.id hdesc)
              · exact rb c₀ hc₀r g hg hdesc
            · intro g hg hng
              rw [hfold] at hng
              by_cases hmid : g ∈ st1.folders
              · obtain ⟨c', hc', hd⟩ := rc g hmid hng
                exact ⟨c', List.mem_cons_of_mem c hc', hd⟩
              · exact ⟨c, List.mem_cons_self c rest,
                  desc_mono (fun f hf => hsubF.subset hf) (kii g hg hmid)⟩
            · intro c₀ hc₀ m hmm fl hfl hdesc
              rw [hfold] at hmm
              rcases List.mem_cons.mp hc₀ with rfl | hc₀r
              · exact kiii m (hsubF'.2.subset hmm) fl hfl (htransf fl hdesc)
              · exact rd c₀ hc₀r m hmm fl hfl hdesc
            · intro m hmm hnm
              rw [hfold] at hnm
              by_cases hmid : m ∈ st1.materials
              · obtain ⟨c', hc', fl, hfl, hd⟩ := re m hmid hnm
                exact ⟨c', List.mem_cons_of_mem c hc', fl, hfl, hd⟩
              · obtain ⟨fl, hfl, hd⟩ := kiv m hmm hmid
                exact ⟨c, List.mem_cons_self c rest, fl, hfl,
                  desc_mono (fun f hf => hsubF.subset hf) hd⟩
      have hchild : ∀ c ∈ childrenOf st.folders fid,
          c ∈ st.folders ∧ c.parentFolder = some fid ∧ depth c.id < fuel := by
        intro c hc
        have hmem := List.mem_filter.mp hc
        have hp : c.parentFolder = some fid := by simpa using hmem.2
        refine ⟨hmem.1, hp, ?_⟩
        have := hh c hmem.1 fid hp
        omega
      have hndrec : st.folders.Nodup := by
        have hnd' : (st.folders.map (fun f => f.id)).Nodup := hnd
        exact hnd'.of_map
      have hndsubs : (childrenOf st.folders fid).Nodup := hndrec.filter _
      obtain ⟨fb, fc, fd, fe⟩ := inner (childrenOf st.folders fid) hndsubs hchild st
        (List.Sublist.refl _) (List.Sublist.refl _) (fun _ _ r hr _ => hr)
      set stF := (childrenOf st.folders fid).foldl
        (fun s x => deleteFolderRec ok fuel x.id s) st with hstF
      have hdm := deleteMaterialsOf_spec ok fid stF
      have hfr := deleteFolderRecord_spec fid (deleteMaterialsOf ok fid stF)
      have hstep : deleteFolderRec ok (fuel + 1) fid st =
          deleteFolderRecord fid (deleteMaterialsOf ok fid stF) := rfl
      refine ⟨?_, ?_, ?_, ?_⟩
      · intro g hg hdesc
        rw [hstep, hfr.1, hdm.1] at hg
        have hgF : g ∈ stF.folders := (List.mem_filter.mp hg).1
        have hgne : g.id ≠ fid := by
          have := (List.mem_filter.mp hg).2
          simpa using this
        rcases desc_top_split hdesc with heq | ⟨c, hcmem, hcp, hcd⟩
        · exact hgne heq
        · exact fb c (List.mem_filter.mpr ⟨hcmem, by simp [hcp]⟩) g hgF hcd
      · intro g hg hng
        rw [hstep, hfr.1, hdm.1] at hng
        by_cases hF : g ∈ stF.folders
        · have hid : g.id = fid := by
            by_contra hne
            exact hng (List.mem_filter.mpr ⟨hF, by simpa using hne⟩)
          rw [hid]
          exact Desc.refl
        · obtain ⟨c, hc, hd⟩ := fc g hg hF
          obtain ⟨hcmem, hcp, _⟩ := hchild c hc
          exact desc_trans (Desc.step hcmem hcp Desc.refl) hd
      · intro m hmm fl hfl hdesc
        rw [hstep, hfr.2.1, hdm.2.1] at hmm
        have hmF : m ∈ stF.materials := (List.mem_filter.mp hmm).1
        have hfne : m.folder ≠ some fid := by
          have := (List.mem_filter.mp hmm).2
          simpa using this
        rcases desc_top_split hdesc with heq | ⟨c, hcmem, hcp, hcd⟩
        · exact hfne (heq ▸ hfl)
        · exact fd c (List.mem_filter.mpr ⟨hcmem, by simp [hcp]⟩) m hmF fl hfl hcd
      · intro m hmm hnm
        rw [hstep, hfr.2.1, hdm.2.1] at hnm
        by_cases hF : m ∈ stF.materials
        · have hfid : m.folder = some fid := by
            by_contra hne
            exact hnm (List.mem_filter.mpr ⟨hF, by simpa using hne⟩)
          exact ⟨fid, hfid, Desc.refl⟩
        · obtain ⟨c, hc, fl, hfl, hd⟩ := fe m hmm hF
          obtain ⟨hcmem, hcp, _⟩ := hchild c hc
          exact ⟨fl, hfl, desc_trans (Desc.step hcmem hcp Desc.refl) hd⟩

theorem delRec_foldl_log (ok : String → Bool) (fuel : Nat) (cs : List Folder) :
    ∀ st0 : Store,
      ∃ Δ, (cs.foldl (fun s x => deleteFolderRec ok fuel x.id s) st0).log =
        st0.log ++ Δ := by
  induction cs with
  | nil => intro st0; exact ⟨[], by simp⟩
  | cons c rest ih =>
      intro st0
      obtain ⟨d1, h1, _⟩ := delRec_log ok fuel c.id st0
      obtain ⟨d2, h2⟩ := ih (deleteFolderRec ok fuel c.id st0)
      refine ⟨d1 ++ d2, ?_⟩
      show (rest.foldl (fun s x => deleteFolderRec ok fuel x.id s)
        (deleteFolderRec ok fuel c.id st0)).log = st0.log ++ (d1 ++ d2)
      rw [h2, h1, List.append_assoc]

/-- C2: deleting a folder empties its whole subtree — no folder record
of the subtree and no material record stored in the subtree survives —
depth-first: the log ends with the root folder's own record deletion and
contains every proper descendant folder's deletion event strictly
earlier; and blob-unlink failures have no effect on the records or the
log (stores run under any two unlink oracles agree on them). -/
theorem C2_deleteFolder_cascade (ok ok' : String → Bool) (depth : Nat → Nat)
    (fuel fid : Nat) (st : Store)
    (hhb : heightOkB st.folders depth = true)
    (hnd : NodupIds st.folders)
    (hfuel : depth fid < fuel) :
    (∀ g ∈ (deleteFolderRec ok fuel fid st).folders, ¬ Desc st.folders fid g.id) ∧
    (∀ m ∈ (deleteFolderRec ok fuel fid st).materials, ∀ fl, m.folder = some fl →
      ¬ Desc st.folders fid fl) ∧
    (∃ Δ, (deleteFolderRec ok fuel fid st).log =
        st.log ++ Δ ++ [DelEvent.folder fid] ∧
      ∀ g ∈ st.folders, Desc st.folders fid g.id → g.id ≠ fid →
        DelEvent.folder g.id ∈ Δ) ∧
    RecordsEq (deleteFolderRec ok fuel fid st) (deleteFolderRec ok' fuel fid st) := by
  have hh := heightOkB_sound hhb
  obtain ⟨m1, m2, m3, m4⟩ := delRec_main ok depth fuel fid st hh hnd hfuel
  refine ⟨m1, m3, ?_, delRec_records_indep ok ok' fuel fid st st ⟨rfl, rfl, rfl⟩⟩
  cases fuel with
  | zero => exact absurd hfuel (Nat.not_lt_zero _)
  | succ n =>
      obtain ⟨df, hdf⟩ := delRec_foldl_log ok n (childrenOf st.folders fid) st
      set stF := (childrenOf st.folders fid).foldl
        (fun s x => deleteFolderRec ok n x.id s) st with hstF
      have hdm := deleteMaterialsOf_spec ok fid stF
      have hfr := deleteFolderRecord_spec fid (deleteMaterialsOf ok fid stF)
      have hstep : deleteFolderRec ok (n + 1) fid st =
          deleteFolderRecord fid (deleteMaterialsOf ok fid stF) := rfl
      obtain ⟨da, hloga, hrema⟩ := delRec_log ok (n + 1) fid st
      have hshape : (deleteFolderRec ok (n + 1) fid st).log =
          st.log ++ ((df ++ [DelEvent.materials fid]) ++ [DelEvent.folder fid]) := by
        rw [hstep, hfr.2.2, hdm.2.2, hdf]
        simp [List.append_assoc]
      have hda : da = (df ++ [DelEvent.materials fid]) ++ [DelEvent.folder fid] :=
        List.append_cancel_left (hloga.symm.trans hshape)
      refine ⟨df ++ [DelEvent.materials fid], ?_, ?_⟩
      · rw [hshape]
        simp [List.append_assoc]
      · intro g hg hdesc hgne
        have hgnot : g ∉ (deleteFolderRec ok (n + 1) fid st).folders :=
          fun hmem => m1 g hmem hdesc
        have hmemd := hrema g hg hgnot
        rw [hda] at hmemd
        rcases List.mem_append.mp hmemd with h | h
        · exact h
        · simp at h
          exact absurd h hgne

/-- Witness for `C2_deleteFolder_cascade`: deleting root folder 1 of the
two-level demo store with a failing unlink oracle empties all records,
counts the blob failure as a warning only, and leaves records and log
identical to a run whose unlinks all succeed. -/
theorem C2_deleteFolder_cascade_witness :
    (deleteFolderRec (fun _ => false) 2 1 demoDelStore).folders = [] ∧
    (deleteFolderRec (fun _ => false) 2 1 demoDelStore).materials = [] ∧
    (deleteFolderRec (fun _ => false) 2 1 demoDelStore).warnings = 1 ∧
    RecordsEq (deleteFolderRec (fun _ => false) 2 1 demoDelStore)
      (deleteFolderRec (fun _ => true) 2 1 demoDelStore) :=
  ⟨by decide, by decide, by decide,
   (C2_deleteFolder_cascade (fun _ => false) (fun _ => true) demoDepth 2 1
      demoDelStore (by decide) (by decide) (by decide)).2.2.2⟩
